import Mathlib

/-!
Verification of the backend's RAG pipeline: chunking, embedding/indexing,
retrieval answering, the translation cache, and exercise suggestion.
Each definition is a shallow embedding of the corresponding Python function;
external services (embedding/generation provider, vector store, JSON parser)
are modelled as explicit oracle parameters, and MD5 digests are represented
by their preimage strings (MD5 is deterministic, so key-equality reasoning
is carried out on the hash inputs).
-/

namespace Backend

/-! ### Python string primitives -/

/-- Python slice `l[a:b]` on a character list, with Python's semantics for
negative and out-of-range bounds: a negative bound counts from the end and
is clamped at 0, a positive bound is clamped at the length. -/
def pySlice (l : List Char) (a b : Int) : List Char :=
  let n : Int := l.length
  let a' : Nat := if a < 0 then (max (n + a) 0).toNat else (min a n).toNat
  let b' : Nat := if b < 0 then (max (n + b) 0).toNat else (min b n).toNat
  (l.take b').drop a'

/-- Python `str.strip()`: remove leading and trailing whitespace. -/
def pyStrip (l : List Char) : List Char :=
  ((l.dropWhile Char.isWhitespace).reverse.dropWhile Char.isWhitespace).reverse

/-- Python `chunk.rfind('. ')`: the highest index at which the two-character
pattern `'. '` occurs, or `-1` when it does not occur. -/
def rfindDotSpace (l : List Char) : Int :=
  match ((List.range l.length).filter
      (fun i => decide (l.get? i = some '.') && decide (l.get? (i+1) = some ' '))).getLast? with
  | some i => (i : Int)
  | none => -1

/-! ### Chunker: `EmbeddingService.chunk_text` (services/embedding_service.py)

The Python `while start < text_length` loop is embedded with explicit fuel,
since (as proved below) the loop does not terminate for every parameter
choice.  One fuel unit is consumed per entry into the loop. -/

/-- The window `chunk = text[start:start + chunk_size]`. -/
def chunkWindow (t : List Char) (cs : Nat) (start : Int) : List Char :=
  pySlice t start (start + (cs : Int))

/-- Whether the sentence-boundary shortening fires: the window ends before
the text's end and `chunk.rfind('. ') > chunk_size // 2`. -/
def chunkShrink (t : List Char) (cs : Nat) (start : Int) : Bool :=
  decide (start + (cs : Int) < (t.length : Int)) &&
    decide (rfindDotSpace (chunkWindow t cs start) > (cs : Int) / 2)

/-- The (possibly shortened) value of `end` after the sentence-boundary
adjustment: `start + last_period + 1` when the shortening fires, else
`start + chunk_size`. -/
def chunkEndAfter (t : List Char) (cs : Nat) (start : Int) : Int :=
  if chunkShrink t cs start then start + rfindDotSpace (chunkWindow t cs start) + 1
  else start + (cs : Int)

/-- The chunk appended on this iteration: the (possibly shortened) window,
stripped. -/
def chunkEmit (t : List Char) (cs : Nat) (start : Int) : List Char :=
  pyStrip
    (if chunkShrink t cs start then
      pySlice (chunkWindow t cs start) 0 (rfindDotSpace (chunkWindow t cs start) + 1)
    else chunkWindow t cs start)

/-- The next value of `start`:
`start = end - overlap if end < text_length else text_length` (with the
updated `end`). -/
def chunkStep (t : List Char) (cs ov : Nat) (start : Int) : Int :=
  if chunkEndAfter t cs start < (t.length : Int) then chunkEndAfter t cs start - (ov : Int)
  else (t.length : Int)

/-- One-to-one embedding of `chunk_text`'s `while start < text_length` loop,
with fuel (one unit per entry into the loop).  `none` means the fuel ran out
before the loop exited. -/
def chunkLoop (t : List Char) (cs ov : Nat) : Nat → Int → List (List Char) → Option (List (List Char))
  | 0, _, _ => none
  | fuel+1, start, acc =>
    if start < (t.length : Int) then
      chunkLoop t cs ov fuel (chunkStep t cs ov start) (acc ++ [chunkEmit t cs start])
    else
      some acc

/-- `chunk_text` run with a given amount of fuel, from `start = 0` with an
empty accumulator. -/
def chunkTextFuel (fuel : Nat) (text : String) (cs ov : Nat) : Option (List String) :=
  (chunkLoop text.data cs ov fuel 0 []).map (List.map (fun l => String.mk l))

/-- The Python `chunk_text(text, chunk_size, overlap)` loop terminates:
some finite amount of fuel suffices. -/
def ChunkTerminates (text : String) (cs ov : Nat) : Prop :=
  ∃ fuel, (chunkTextFuel fuel text cs ov).isSome

/-- `chunk_text` with the fuel `len(text) + 1`, which is sufficient in every
terminating regime (each loop iteration then advances `start` by at least 1).
`embed_content` always calls `chunk_text` with the defaults
`chunk_size = 1000, overlap = 200`, which lie in that regime. -/
def chunkText (text : String) (cs ov : Nat) : List String :=
  (chunkTextFuel (text.data.length + 1) text cs ov).getD []

/-! ### Vector store model (Qdrant)

An upsert with an already-present id overwrites that point; with a fresh id
it inserts.  The store is modelled as a map from point ids to points; `V` is
the (opaque) type of embedding vectors produced by the provider. -/

/-- Payload stored with each point by `EmbeddingService.embed_content`. -/
structure PointPayload where
  text : String
  chapter_id : String
  chapter_title : String
  chunk_index : Nat
  total_chunks : Nat
deriving Repr, DecidableEq

/-- A Qdrant point: id, embedding vector, payload. -/
structure QPoint (V : Type) where
  id : String
  vector : V
  payload : PointPayload
deriving Repr, DecidableEq

/-- The vector store's id-to-point map. -/
def Store (V : Type) := String → Option (QPoint V)

/-- `qdrant_client.upsert` of a single point: overwrite-or-insert by id. -/
def upsertPoint {V : Type} (s : Store V) (p : QPoint V) : Store V :=
  fun i => if p.id = i then some p else s i

/-- Upsert a list of points in order. -/
def upsertAll {V : Type} (s : Store V) (ps : List (QPoint V)) : Store V :=
  ps.foldl upsertPoint s

/-- The last point in `ps` whose id is `i`, if any. -/
def lastWithId {V : Type} (i : String) : List (QPoint V) → Option (QPoint V)
  | [] => none
  | p :: rest =>
    match lastWithId i rest with
    | some q => some q
    | none => if p.id = i then some p else none

/-! ### `EmbeddingService.embed_content` (services/embedding_service.py)

The per-chunk OpenAI embedding call and the per-chunk Qdrant upsert are
modelled as oracles indexed by the chunk index (each can fail, mirroring a
raised exception).  The trace records the result (`.error (i, e)` models the
`logger.error` report naming index `i` followed by the re-raise), the final
store, and the indices at which the embedding provider was invoked and at
which an upsert succeeded. -/

/-- The `metadata` dict passed to `embed_content`. -/
structure ChapterMeta where
  chapter_id : String
  chapter_title : String
deriving Repr, DecidableEq

/-- The point id `hashlib.md5(f"{metadata['chapter_id']}_{idx}".encode()).hexdigest()`,
represented by the MD5 preimage (MD5 is a fixed deterministic function, so
all key-equality reasoning is done on its input). -/
def contentId (chapterId : String) (idx : Nat) : String :=
  chapterId ++ "_" ++ toString idx

/-- The point built for chunk `idx` of a chapter. -/
def mkPoint {V : Type} (meta : ChapterMeta) (idx total : Nat) (chunk : String) (v : V) : QPoint V :=
  ⟨contentId meta.chapter_id idx, v,
   ⟨chunk, meta.chapter_id, meta.chapter_title, idx, total⟩⟩

/-- Observable trace of one `embed_content` call. -/
structure EmbedTrace (V : Type) where
  result : Except (Nat × String) Nat
  store : Store V
  embedCalls : List Nat
  upserts : List Nat

/-- The `for idx, chunk in enumerate(chunks)` loop of `embed_content`:
embed chunk `idx`, build its point, upsert it; on the first failure, report
the failing index and stop. -/
def embedLoop {V : Type} (eo : Nat → String → Except String V)
    (uo : Nat → Except String Unit) (meta : ChapterMeta) (total : Nat) :
    List String → Nat → Store V → List Nat → List Nat → EmbedTrace V
  | [], _, s, ec, us => ⟨.ok total, s, ec, us⟩
  | c :: rest, idx, s, ec, us =>
    match eo idx c with
    | .error e => ⟨.error (idx, e), s, ec ++ [idx], us⟩
    | .ok v =>
      match uo idx with
      | .error e => ⟨.error (idx, e), s, ec ++ [idx], us⟩
      | .ok _ =>
        embedLoop eo uo meta total rest (idx + 1)
          (upsertPoint s (mkPoint meta idx total c v)) (ec ++ [idx]) (us ++ [idx])

/-- `embed_content(content, metadata)` against store `s`: chunk with the
default parameters `(1000, 200)` and run the embedding loop. -/
def embedContent {V : Type} (eo : Nat → String → Except String V)
    (uo : Nat → Except String Unit) (content : String) (meta : ChapterMeta)
    (s : Store V) : EmbedTrace V :=
  let chunks := chunkText content 1000 200
  embedLoop eo uo meta chunks.length chunks 0 s [] []

/-- The points `embed_content` upserts (in order), which depend only on the
oracles, metadata and chunk list — not on the prior store contents. -/
def embedPoints {V : Type} (eo : Nat → String → Except String V)
    (uo : Nat → Except String Unit) (meta : ChapterMeta) (total : Nat) :
    List String → Nat → List (QPoint V)
  | [], _ => []
  | c :: rest, idx =>
    match eo idx c with
    | .error _ => []
    | .ok v =>
      match uo idx with
      | .error _ => []
      | .ok _ => mkPoint meta idx total c v :: embedPoints eo uo meta total rest (idx + 1)

/-! ### Batch script `embed_content.py` (repository root)

Its `embed_documents` builds each point as
`PointStruct(id=str(uuid.uuid4()), ...)`: the id is a freshly drawn random
UUID, modelled as an explicit input. -/

/-- Payload stored by the script for each chunk. -/
structure ScriptPayload where
  text : String
  title : String
  file_path : String
  chunk_index : Nat
  total_chunks : Nat
deriving Repr, DecidableEq

/-- Point construction in `embed_documents`: the id is the drawn UUID string,
independent of `(file_path, chunk_index)`. -/
def scriptPoint {V : Type} (uuid : String) (v : V) (pl : ScriptPayload) : QPoint V :=
  ⟨uuid, v, ⟨pl.text, pl.file_path, pl.title, pl.chunk_index, pl.total_chunks⟩⟩

/-! ### `EmbeddingService.delete_chapter_embeddings` -/

/-- `delete_chapter_embeddings(chapter_id)`: issue the store delete; on
success return `True`, and when the store call raises, catch the exception,
log it, and return `False`.  The store delete outcome is an oracle; the
`Except` result type mirrors Python exception flow (an uncaught exception
would be `.error`). -/
def deleteChapterEmbeddings (storeDelete : String → Except String Unit)
    (chapter_id : String) : Except String Bool :=
  match storeDelete chapter_id with
  | .ok _ => .ok true
  | .error _ => .ok false

/-! ### `RAGService.answer_with_context` (services/rag_service.py)

`search_similar` hits the embedding provider and the vector store, so its
outcome is an input (`.error` models a raised retrieval exception).  The
generation provider is an oracle from the user message to the generated
text; the returned call log lists the user messages of the generation calls
actually made, so "no generation call" is a `[]` log. -/

/-- A retrieval result as returned by `search_similar`; `S` is the (opaque,
floating-point in the source) score type, which is only passed through. -/
structure RetrievedDoc (S : Type) where
  text : String
  chapter_id : String
  chapter_title : String
  chunk_index : Nat
  score : S

/-- The fixed fallback answer returned on empty retrieval. -/
def fallbackMessage : String :=
  "I couldn't find relevant information in the textbook to answer your question. " ++
  "Could you please rephrase or ask about a different topic?"

/-- The context block built by `generate_response`: each document rendered as
`[Source i: title]\ntext` (1-based `i`), joined by blank lines. -/
def contextBlock {S : Type} (docs : List (RetrievedDoc S)) : String :=
  String.intercalate "\n\n"
    (docs.enum.map (fun p =>
      "[Source " ++ toString (p.1 + 1) ++ ": " ++ p.2.chapter_title ++ "]\n" ++ p.2.text))

/-- The user message sent by `generate_response`. -/
def ragUserMessage {S : Type} (query : String) (docs : List (RetrievedDoc S)) : String :=
  "Context from textbook:\n\n" ++ contextBlock docs ++ "\n\nStudent's question: " ++ query

/-- `answer_with_context(query, ...)`: on empty retrieval return the fixed
fallback and `[]` without consulting the generation oracle; otherwise make
exactly one generation call on the assembled prompt.  The third component
logs the generation calls made. -/
def answerWithContext {S : Type} (generate : String → Except String String)
    (searchOutcome : Except String (List (RetrievedDoc S))) (query : String) :
    Except String (String × List (RetrievedDoc S) × List String) :=
  match searchOutcome with
  | .error e => .error e
  | .ok docs =>
    if docs.isEmpty then
      .ok (fallbackMessage, [], [])
    else
      match generate (ragUserMessage query docs) with
      | .error e => .error e
      | .ok ans => .ok (ans, docs, [ragUserMessage query docs])

/-! ### `TranslationService` (services/translation_service.py) -/

/-- A row of the `TranslationCache` table. -/
structure CacheEntry where
  content_hash : String
  source_lang : String
  target_lang : String
  translated_content : String
deriving Repr, DecidableEq

/-- `_get_content_hash(content, target_lang)`:
`hashlib.md5(f"{content}_{target_lang}".encode()).hexdigest()`, represented
by the MD5 preimage string (MD5 is deterministic, so two inputs get the same
digest exactly when the preimages coincide, up to MD5 collisions which are
not modelled). -/
def getContentHash (content target_lang : String) : String :=
  content ++ "_" ++ target_lang

/-- The `lang_map.get(target_lang, target_lang)` lookup. -/
def langName (target_lang : String) : String :=
  if target_lang = "en" then "English"
  else if target_lang = "ur" then "Urdu"
  else target_lang

/-- The system message of the translation request, with the target language
name interpolated; `source_lang` does not occur in it. -/
def translationSystemText (name : String) : String :=
  "You are a professional translator specializing in technical and educational content about Physical AI and Humanoid Robotics.\n\n" ++
  "Translate the following content to " ++ name ++ ":\n" ++
  "- Maintain technical accuracy\n" ++
  "- Keep technical terms in English when appropriate (e.g., \"Physical AI\", \"robotics\", \"actuator\")\n" ++
  "- Preserve formatting (markdown, code blocks, etc.)\n" ++
  "- Ensure the translation is natural and readable\n" ++
  "- Maintain the educational tone"

/-- `translate_content(content, target_lang, db, source_lang)`: look the hash
up in the cache (`.first()` on rows matching the hash — the first matching
row in insertion order); on a hit return the stored text with no provider
call; on a miss call the provider with (system message, content), insert a
new cache row and return the fresh translation.  The provider is an oracle
from the two messages to the translated text (`.error` models a raised
provider exception, which `translate_content` re-raises).  Returns
(translated text, database after the call, provider call log). -/
def translateContent (provider : String → String → Except String String)
    (db : List CacheEntry) (content target_lang source_lang : String) :
    Except String (String × List CacheEntry × List (String × String)) :=
  let h := getContentHash content target_lang
  match db.find? (fun e => e.content_hash = h) with
  | some cached => .ok (cached.translated_content, db, [])
  | none =>
    let sys := translationSystemText (langName target_lang)
    match provider sys content with
    | .error e => .error e
    | .ok translated =>
      .ok (translated, db ++ [⟨h, source_lang, target_lang, translated⟩], [(sys, content)])

/-! ### `PersonalizationService.suggest_exercises`
(services/personalization_service.py)

The generation call plus `json.loads` are modelled together as an oracle
outcome: `.error` covers a raised provider error and a JSON parse failure,
`.ok j` is the parsed Python value.  The code then runs, inside the same
`try`, `result.get("exercises", [])` (an `AttributeError` for non-dict
values), `len(exercises)` in a log line (a `TypeError` for values without a
length), and returns the value unchecked; any exception lands in the
`except` branch, which returns `[]`. -/

/-- Parsed JSON / Python value. -/
inductive PyJson where
  | obj (fields : List (String × PyJson))
  | arr (elems : List PyJson)
  | str (s : String)
  | num (n : Int)
  | boolean (b : Bool)
  | null
deriving Repr

/-- Whether Python `len()` is defined on the value (dict, list, str are
sized; numbers, booleans and `None` raise `TypeError`). -/
def pyHasLen : PyJson → Bool
  | .obj _ => true
  | .arr _ => true
  | .str _ => true
  | _ => false

/-- Dict lookup `result.get(key, default)`; an `.obj` represents an
already-parsed Python dict (unique keys). -/
def lookupField (fields : List (String × PyJson)) (key : String) : Option PyJson :=
  (fields.find? (fun f => f.1 = key)).map (fun f => f.2)

/-- `suggest_exercises` after the generation call: return the `"exercises"`
value when nothing raises, and `[]` from the `except` branch otherwise. -/
def suggestExercises (genOutcome : Except String PyJson) : PyJson :=
  match genOutcome with
  | .error _ => .arr []
  | .ok j =>
    match j with
    | .obj fields =>
      let ex := (lookupField fields "exercises").getD (.arr [])
      if pyHasLen ex then ex else .arr []
    | _ => .arr []

/-! ## Helper lemmas -/

/-- `find?` over an append whose first part has no match searches the second
part. -/
theorem find?_append_of_none {α : Type} {p : α → Bool} {l₁ l₂ : List α}
    (h : l₁.find? p = none) : (l₁ ++ l₂).find? p = l₂.find? p := by
  induction l₁ with
  | nil => rfl
  | cons a l ih =>
    rw [List.find?_cons] at h
    rcases hpa : p a with _ | _
    · rw [List.cons_append, List.find?_cons, hpa]
      exact ih (by rwa [hpa] at h)
    · rw [hpa] at h; exact absurd h (by simp)

/-! ## Claim theorems -/

/-- Claim C1: for every query, if `search_similar` returns zero results,
`answer_with_context` returns the fixed fallback message and an empty source
list, and performs no generation-model call (the generation call log is
empty, whatever the generation oracle would answer). -/
theorem answer_with_context_empty_fallback {S : Type}
    (generate : String → Except String String) (query : String) :
    answerWithContext (S := S) generate (.ok []) query =
      .ok (fallbackMessage, [], []) := rfl

/-- Claim C8, counterexample: with a vector store whose delete call fails,
`delete_chapter_embeddings` returns the normal result `False` instead of
propagating the store failure (`.error`) to its caller — the claimed
propagation does not happen. -/
theorem delete_chapter_embeddings_swallows :
    deleteChapterEmbeddings (fun _ => .error "store unavailable") "chapter-1" =
      .ok false ∧
    (Except.ok false : Except String Bool) ≠ .error "store unavailable" := by
  exact ⟨rfl, by simp⟩

/-- Claim C8, amended: when the vector-store delete call fails,
`delete_chapter_embeddings` catches the exception, logs it, and returns the
normal value `False`; the store failure is not propagated. -/
theorem delete_chapter_embeddings_returns_false
    (storeDelete : String → Except String Unit) (chapter_id : String)
    (e : String) (h : storeDelete chapter_id = .error e) :
    deleteChapterEmbeddings storeDelete chapter_id = .ok false := by
  unfold deleteChapterEmbeddings
  rw [h]

/-- Witness for `delete_chapter_embeddings_returns_false` at a concrete
failing store. -/
theorem delete_chapter_embeddings_returns_false_witness :
    deleteChapterEmbeddings (fun _ => .error "timeout") "ch-7" = .ok false :=
  delete_chapter_embeddings_returns_false (fun _ => .error "timeout") "ch-7"
    "timeout" rfl

/-- Claim C9, counterexample: on the provider output `{"exercises": "abc"}` —
valid JSON, but not the expected structured list of exercises —
`suggest_exercises` returns the string `"abc"` to its caller, not an empty
list, because `result.get("exercises", [])` succeeds and `len("abc")` is
defined. -/
theorem suggest_exercises_not_always_empty :
    suggestExercises (.ok (.obj [("exercises", .str "abc")])) = .str "abc" ∧
    PyJson.str "abc" ≠ .arr [] := by
  refine ⟨rfl, ?_⟩
  intro h
  exact PyJson.noConfusion h

/-- Claim C9, amended: `suggest_exercises` returns an empty list whenever the
generation call or the JSON parse fails, whenever the parsed value is not an
object, and whenever the object's `"exercises"` value has no Python length;
a sized non-list `"exercises"` value, however, is returned as-is.  (It never
raises: the embedding is a total function.) -/
theorem suggest_exercises_degrades :
    (∀ e, suggestExercises (.error e) = .arr []) ∧
    (∀ j, (match j with | PyJson.obj _ => False | _ => True) →
      suggestExercises (.ok j) = .arr []) ∧
    (∀ fields, pyHasLen ((lookupField fields "exercises").getD (.arr [])) = false →
      suggestExercises (.ok (.obj fields)) = .arr []) := by
  refine ⟨fun _ => rfl, ?_, ?_⟩
  · intro j hj
    cases j with
    | obj fields => exact absurd hj (by simp)
    | arr l => rfl
    | str s => rfl
    | num n => rfl
    | boolean b => rfl
    | null => rfl
  · intro fields hf
    simp [suggestExercises, hf]

/-- Witness for `suggest_exercises_degrades`: a failed provider call, a
JSON-array output, and an object whose `"exercises"` value is `null` all
yield the empty list. -/
theorem suggest_exercises_degrades_witness :
    suggestExercises (.error "rate limit") = .arr [] ∧
    suggestExercises (.ok (.arr [.num 1])) = .arr [] ∧
    suggestExercises (.ok (.obj [("exercises", .null)])) = .arr [] :=
  ⟨suggest_exercises_degrades.1 "rate limit",
   suggest_exercises_degrades.2.1 (.arr [.num 1]) trivial,
   suggest_exercises_degrades.2.2 [("exercises", .null)] rfl⟩

/-- Claim C3, counterexample: the two distinct (content, target_lang) pairs
`("x_", "y")` and `("x", "_y")` produce the same cache key
(both hash inputs are `"x__y"`), so the second pair hits the first pair's
cache entry. -/
theorem content_hash_collision :
    getContentHash "x_" "y" = getContentHash "x" "_y" ∧
    (("x_", "y") : String × String) ≠ ("x", "_y") := by
  exact ⟨by decide, by decide⟩

/-- Claim C3, amended: the key derivation joins content and target language
with `"_"`, so two distinct pairs can share a key only through that
ambiguity; whenever the two target languages have the same length (as the
supported codes `"en"`/`"ur"` do), distinct pairs always produce distinct
keys. -/
theorem content_hash_injective_same_len_lang
    (c₁ l₁ c₂ l₂ : String) (hlen : l₁.length = l₂.length)
    (hne : (c₁, l₁) ≠ (c₂, l₂)) :
    getContentHash c₁ l₁ ≠ getContentHash c₂ l₂ := by
  intro h
  apply hne
  unfold getContentHash at h
  have hd : c₁.data ++ ('_' :: l₁.data) = c₂.data ++ ('_' :: l₂.data) := by
    have := congrArg String.data h
    simpa [String.data_append] using this
  have hl : l₁.data.length = l₂.data.length := hlen
  have := List.append_inj' hd (by simp [hl])
  rcases this with ⟨hc, hrest⟩
  have hl2 : l₁.data = l₂.data := by injection hrest
  have e1 : c₁ = c₂ := by
    cases c₁
    cases c₂
    exact congrArg String.mk hc
  have e2 : l₁ = l₂ := by
    cases l₁
    cases l₂
    exact congrArg String.mk hl2
  rw [e1, e2]

/-- Witness for `content_hash_injective_same_len_lang` on the concrete pairs
`("alpha", "en")` and `("alpha", "ur")`. -/
theorem content_hash_injective_same_len_lang_witness :
    getContentHash "alpha" "en" ≠ getContentHash "alpha" "ur" :=
  content_hash_injective_same_len_lang "alpha" "en" "alpha" "ur"
    (by decide) (by decide)

/-- Erase the `source_lang` column of every cache row (the only part of the
translation state that may depend on the `source_lang` argument). -/
def eraseSourceLang (db : List CacheEntry) : List CacheEntry :=
  db.map (fun e => ⟨e.content_hash, "", e.target_lang, e.translated_content⟩)

/-- Claim C10: the outcome of `translate_content(content, target_lang, db,
source_lang)` is independent of `source_lang`: two runs differing only in
`source_lang` return the same translated text, make the same provider calls
with the same prompts, and leave databases that agree except for the
`source_lang` metadata column of the inserted row. -/
theorem translate_content_source_lang_independent
    (provider : String → String → Except String String)
    (db : List CacheEntry) (content target_lang s₁ s₂ : String) :
    (translateContent provider db content target_lang s₁).map
        (fun x => (x.1, eraseSourceLang x.2.1, x.2.2)) =
      (translateContent provider db content target_lang s₂).map
        (fun x => (x.1, eraseSourceLang x.2.1, x.2.2)) := by
  simp only [translateContent]
  cases hf : db.find? (fun e => e.content_hash = getContentHash content target_lang) with
  | some cached => rfl
  | none =>
    cases hp : provider (translationSystemText (langName target_lang)) content with
    | error e => rfl
    | ok translated => simp [eraseSourceLang, Except.map, List.map_append]

/-- Claim C2: whatever a call to `translate_content(content, target_lang)`
returned and stored, a second call on the identical `(content, target_lang)`
pair against the resulting database returns the same stored text and makes
zero translation-provider calls (empty provider-call log) — for any
`source_lang` arguments on either call. -/
theorem translate_content_cache_hit
    (provider : String → String → Except String String)
    (db : List CacheEntry) (content target_lang s₁ s₂ r : String)
    (db' : List CacheEntry) (log : List (String × String))
    (h : translateContent provider db content target_lang s₁ = .ok (r, db', log)) :
    translateContent provider db' content target_lang s₂ = .ok (r, db', []) := by
  revert h
  simp only [translateContent]
  cases hf : db.find? (fun e => e.content_hash = getContentHash content target_lang) with
  | some cached =>
    intro h
    simp only [Except.ok.injEq, Prod.mk.injEq] at h
    obtain ⟨h1, h2, h3⟩ := h
    subst h1
    subst h2
    rw [hf]
  | none =>
    cases hp : provider (translationSystemText (langName target_lang)) content with
    | error e =>
      intro h
      exact Except.noConfusion h
    | ok translated =>
      intro h
      simp only [Except.ok.injEq, Prod.mk.injEq] at h
      obtain ⟨h1, h2, h3⟩ := h
      subst h1
      subst h2
      rw [find?_append_of_none hf]
      simp

/-- Witness for `translate_content_cache_hit`: a concrete first call on
`("hi", "ur")` against an empty cache stores `"T:hi"`; the second call
returns it from the cache with no provider call. -/
theorem translate_content_cache_hit_witness :
    translateContent (fun _ u => .ok ("T:" ++ u)) [⟨"hi_ur", "en", "ur", "T:hi"⟩]
        "hi" "ur" "en" =
      .ok ("T:hi", [⟨"hi_ur", "en", "ur", "T:hi"⟩], []) :=
  translate_content_cache_hit (fun _ u => .ok ("T:" ++ u)) [] "hi" "ur" "en" "en"
    "T:hi" [⟨"hi_ur", "en", "ur", "T:hi"⟩]
    [(translationSystemText (langName "ur"), "hi")] rfl

/-- Looking a point up after an `upsertAll` finds the last upserted point
with that id, or falls back to the prior store. -/
theorem upsertAll_apply {V : Type} :
    ∀ (ps : List (QPoint V)) (s : Store V) (i : String),
      upsertAll s ps i =
        match lastWithId i ps with
        | some q => some q
        | none => s i := by
  intro ps
  induction ps with
  | nil => intro s i; rfl
  | cons p rest ih =>
    intro s i
    show upsertAll (upsertPoint s p) rest i = _
    rw [ih]
    cases h : lastWithId i rest with
    | some q => simp [lastWithId, h]
    | none =>
      simp only [lastWithId, h, upsertPoint]
      cases hpi : decide (p.id = i) with
      | true => simp [of_decide_eq_true hpi]
      | false => simp [of_decide_eq_false hpi]

/-- Upserting the same point list twice is the same as upserting it once:
re-upsert by id overwrites, never duplicates. -/
theorem upsertAll_self {V : Type} (s : Store V) (ps : List (QPoint V)) :
    upsertAll (upsertAll s ps) ps = upsertAll s ps := by
  funext i
  rw [upsertAll_apply]
  cases h : lastWithId i ps with
  | some q => rw [upsertAll_apply, h]
  | none => rfl

/-- The store left by the embedding loop is the prior store with the
produced points upserted; which points are produced does not depend on the
prior store. -/
theorem embedLoop_store_spec {V : Type} (eo : Nat → String → Except String V)
    (uo : Nat → Except String Unit) (meta : ChapterMeta) (total : Nat) :
    ∀ (chunks : List String) (idx : Nat) (s : Store V) (ec us : List Nat),
      (embedLoop eo uo meta total chunks idx s ec us).store =
        upsertAll s (embedPoints eo uo meta total chunks idx) := by
  intro chunks
  induction chunks with
  | nil => intro idx s ec us; rfl
  | cons c rest ih =>
    intro idx s ec us
    simp only [embedLoop, embedPoints]
    cases eo idx c with
    | error e => rfl
    | ok v =>
      cases uo idx with
      | error e => rfl
      | ok _ => exact ih (idx + 1) _ _ _

/-- Claim C4, amended (service path `EmbeddingService.embed_content`): each
point's id is the MD5 of `f"{chapter_id}_{chunk_index}"` — a deterministic
function of `(chapter_id, chunk_index)` only — and therefore running
`embed_content` a second time with the same content, metadata and oracle
behaviour maps every produced id to the same point again: the vector store
is unchanged by the second run (same points, hence the same number of points
for the chapter; re-indexing overwrites rather than duplicates). -/
theorem embed_content_deterministic_overwrite {V : Type}
    (eo : Nat → String → Except String V) (uo : Nat → Except String Unit)
    (content : String) (meta : ChapterMeta) (s : Store V) :
    (∀ (idx total : Nat) (chunk : String) (v : V),
        (mkPoint meta idx total chunk v).id = contentId meta.chapter_id idx) ∧
      (embedContent eo uo content meta
          (embedContent eo uo content meta s).store).store =
        (embedContent eo uo content meta s).store := by
  refine ⟨fun _ _ _ _ => rfl, ?_⟩
  unfold embedContent
  rw [embedLoop_store_spec, embedLoop_store_spec, upsertAll_self]

/-- Claim C4, counterexample (script path `embed_content.py`): the batch
script builds each point with `id=str(uuid.uuid4())`.  Two points for the
same document and the same chunk index, produced from different UUID draws,
carry different ids, so the stored point id is not a function of
`(document_id, chunk_index)` on this indexing path. -/
theorem script_point_id_not_deterministic :
    (scriptPoint (V := Unit) "2b1c0000-0000-4000-8000-000000000001" ()
        ⟨"Robots move.", "Intro", "docs/intro.md", 0, 1⟩).payload =
      (scriptPoint (V := Unit) "2b1c0000-0000-4000-8000-000000000002" ()
        ⟨"Robots move.", "Intro", "docs/intro.md", 0, 1⟩).payload ∧
    (scriptPoint (V := Unit) "2b1c0000-0000-4000-8000-000000000001" ()
        ⟨"Robots move.", "Intro", "docs/intro.md", 0, 1⟩).id ≠
      (scriptPoint (V := Unit) "2b1c0000-0000-4000-8000-000000000002" ()
        ⟨"Robots move.", "Intro", "docs/intro.md", 0, 1⟩).id := by
  exact ⟨rfl, by decide⟩

/-- The embedding loop's control behaviour, for accumulators that already
hold the first `idx` indices: a failure at chunk `i` reports `i`, has
invoked the embedding provider exactly on indices `0..i` and upserted
exactly indices `0..i-1`; a completed loop returns the total chunk count and
has upserted every index. -/
theorem embedLoop_abort_spec {V : Type} (eo : Nat → String → Except String V)
    (uo : Nat → Except String Unit) (meta : ChapterMeta) (total : Nat) :
    ∀ (chunks : List String) (idx : Nat) (s : Store V),
      (∀ i e,
        (embedLoop eo uo meta total chunks idx s (List.range idx) (List.range idx)).result
            = .error (i, e) →
          (embedLoop eo uo meta total chunks idx s (List.range idx) (List.range idx)).embedCalls
              = List.range (i + 1) ∧
            (embedLoop eo uo meta total chunks idx s (List.range idx) (List.range idx)).upserts
              = List.range i) ∧
      (∀ n,
        (embedLoop eo uo meta total chunks idx s (List.range idx) (List.range idx)).result
            = .ok n →
          n = total ∧
            (embedLoop eo uo meta total chunks idx s (List.range idx) (List.range idx)).upserts
              = List.range (idx + chunks.length)) := by
  intro chunks
  induction chunks with
  | nil =>
    intro idx s
    constructor
    · intro i e h
      exact Except.noConfusion h
    · intro n h
      injection h with h'
      exact ⟨h'.symm, rfl⟩
  | cons c rest ih =>
    intro idx s
    simp only [embedLoop]
    cases eo idx c with
    | error e₀ =>
      constructor
      · intro i e h
        injection h with h'
        injection h' with hi he
        subst hi
        exact ⟨(List.range_succ idx).symm, rfl⟩
      · intro n h
        exact Except.noConfusion h
    | ok v =>
      cases uo idx with
      | error e₀ =>
        constructor
        · intro i e h
          injection h with h'
          injection h' with hi he
          subst hi
          exact ⟨(List.range_succ idx).symm, rfl⟩
        · intro n h
          exact Except.noConfusion h
      | ok _ =>
        rw [← List.range_succ]
        have := ih (idx + 1) (upsertPoint s (mkPoint meta idx total c v))
        constructor
        · exact this.1
        · intro n h
          obtain ⟨h1, h2⟩ := this.2 n h
          refine ⟨h1, ?_⟩
          rw [h2]
          congr 1
          simp only [List.length_cons]
          omega

/-- Claim C5: if embedding or upserting chunk `i` fails, `embed_content`
reports an error carrying the failing index `i`, has consulted the
embedding provider only for indices `≤ i` and upserted only indices `< i`
(no later chunk is embedded or upserted); if every chunk succeeds, it
returns the count of chunks and has upserted every chunk index. -/
theorem embed_content_abort_or_count {V : Type}
    (eo : Nat → String → Except String V) (uo : Nat → Except String Unit)
    (content : String) (meta : ChapterMeta) (s : Store V) :
    (∀ i e,
      (embedContent eo uo content meta s).result = .error (i, e) →
        (embedContent eo uo content meta s).embedCalls = List.range (i + 1) ∧
          (embedContent eo uo content meta s).upserts = List.range i) ∧
    (∀ n,
      (embedContent eo uo content meta s).result = .ok n →
        n = (chunkText content 1000 200).length ∧
          (embedContent eo uo content meta s).upserts = List.range n) := by
  have h := embedLoop_abort_spec eo uo meta (chunkText content 1000 200).length
    (chunkText content 1000 200) 0 s
  constructor
  · exact h.1
  · intro n hn
    obtain ⟨h1, h2⟩ := h.2 n hn
    subst h1
    rw [Nat.zero_add] at h2
    exact ⟨rfl, h2⟩

/-- Witness for `embed_content_abort_or_count`: with a provider that fails on
every call, indexing `"hello"` aborts at chunk 0 having embedded only chunk 0
and upserted nothing; with an always-succeeding provider it returns the
chunk count 1 and upserts exactly chunk 0. -/
theorem embed_content_abort_or_count_witness :
    ((embedContent (V := Nat) (fun _ _ => .error "boom") (fun _ => .ok ())
        "hello" ⟨"ch1", "Intro"⟩ (fun _ => none)).embedCalls = List.range 1 ∧
      (embedContent (V := Nat) (fun _ _ => .error "boom") (fun _ => .ok ())
        "hello" ⟨"ch1", "Intro"⟩ (fun _ => none)).upserts = List.range 0) ∧
    (1 = (chunkText "hello" 1000 200).length ∧
      (embedContent (V := Nat) (fun _ _ => .ok 7) (fun _ => .ok ())
        "hello" ⟨"ch1", "Intro"⟩ (fun _ => none)).upserts = List.range 1) :=
  ⟨(embed_content_abort_or_count (fun _ _ => .error "boom") (fun _ => .ok ())
      "hello" ⟨"ch1", "Intro"⟩ (fun _ => none)).1 0 "boom" rfl,
   (embed_content_abort_or_count (fun _ _ => .ok 7) (fun _ => .ok ())
      "hello" ⟨"ch1", "Intro"⟩ (fun _ => none)).2 1 rfl⟩

/-- Forward progress of one `chunk_text` iteration, in the regime
`overlap < chunk_size` and `overlap ≤ chunk_size / 2 + 1`: the next `start`
either advances by at least one character or jumps to the text's end. -/
theorem chunkStep_progress (t : List Char) (cs ov : Nat) (start : Int)
    (h : start < (t.length : Int)) (h1 : ov < cs) (h2 : ov ≤ cs / 2 + 1) :
    start + 1 ≤ chunkStep t cs ov start ∨ chunkStep t cs ov start = (t.length : Int) := by
  unfold chunkStep
  by_cases he : chunkEndAfter t cs start < (t.length : Int)
  · left
    rw [if_pos he]
    unfold chunkEndAfter
    by_cases hs : chunkShrink t cs start = true
    · rw [if_pos hs]
      have hlp : rfindDotSpace (chunkWindow t cs start) > (cs : Int) / 2 := by
        unfold chunkShrink at hs
        rw [Bool.and_eq_true] at hs
        exact of_decide_eq_true hs.2
      omega
    · rw [if_neg hs]
      omega
  · right
    rw [if_neg he]

/-- In the regime `overlap < chunk_size` and `overlap ≤ chunk_size / 2 + 1`,
fuel bounded by the remaining distance to the text's end suffices for the
`chunk_text` loop to exit. -/
theorem chunkLoop_total (t : List Char) (cs ov : Nat)
    (h1 : ov < cs) (h2 : ov ≤ cs / 2 + 1) :
    ∀ (k : Nat) (start : Int) (acc : List (List Char)),
      (t.length : Int) - start ≤ (k : Int) →
      (chunkLoop t cs ov (k + 1) start acc).isSome := by
  intro k
  induction k with
  | zero =>
    intro start acc hk
    have hns : ¬ (start < (t.length : Int)) := by omega
    simp [chunkLoop, hns]
  | succ k ih =>
    intro start acc hk
    by_cases hlt : start < (t.length : Int)
    · rw [show chunkLoop t cs ov (k + 1 + 1) start acc =
          chunkLoop t cs ov (k + 1) (chunkStep t cs ov start)
            (acc ++ [chunkEmit t cs start]) from by
        simp only [chunkLoop]
        rw [if_pos hlt]]
      apply ih
      rcases chunkStep_progress t cs ov start hlt h1 h2 with hp | hp
      · omega
      · omega
    · simp [chunkLoop, hlt]

/-- Claim C6, amended: for every text, `chunk_text(text, chunk_size,
overlap)` makes forward progress and terminates whenever
`overlap < chunk_size` **and** `overlap ≤ chunk_size / 2 + 1` (the default
parameters `1000, 200` satisfy this); for
`chunk_size / 2 + 1 < overlap < chunk_size` the sentence-boundary shortening
can move `start` backwards or keep it fixed, and the loop need not
terminate. -/
theorem chunk_text_terminates (text : String) (cs ov : Nat)
    (h1 : ov < cs) (h2 : ov ≤ cs / 2 + 1) : ChunkTerminates text cs ov := by
  refine ⟨text.data.length + 1, ?_⟩
  unfold chunkTextFuel
  have h := chunkLoop_total text.data cs ov h1 h2 text.data.length 0 [] (by omega)
  rcases Option.isSome_iff_exists.mp h with ⟨x, hx⟩
  rw [hx]
  rfl

/-- Witness for `chunk_text_terminates` at the default parameters
`(1000, 200)`. -/
theorem chunk_text_terminates_witness : ChunkTerminates "hello. world" 1000 200 :=
  chunk_text_terminates "hello. world" 1000 200 (by decide) (by decide)

/-- On the input `"abcd. xyzzz"` with `chunk_size = 6`, `overlap = 5`, each
iteration of the loop starts at position 0, shortens the window at the
sentence boundary (`last_period = 4 > 3`), sets `end = 5` and
`start = 5 - 5 = 0` again: the state repeats forever. -/
theorem chunkLoop_cex_loops :
    ∀ (fuel : Nat) (acc : List (List Char)),
      chunkLoop "abcd. xyzzz".data 6 5 fuel 0 acc = none := by
  intro fuel
  induction fuel with
  | zero => intro acc; rfl
  | succ f ih =>
    intro acc
    rw [show chunkLoop "abcd. xyzzz".data 6 5 (f + 1) 0 acc =
        chunkLoop "abcd. xyzzz".data 6 5 f (chunkStep "abcd. xyzzz".data 6 5 0)
          (acc ++ [chunkEmit "abcd. xyzzz".data 6 0]) from by
      simp only [chunkLoop]
      rw [if_pos (by decide)]]
    rw [show chunkStep "abcd. xyzzz".data 6 5 0 = (0 : Int) from by decide]
    exact ih _

/-- Claim C6, counterexample: `chunk_size = 6 > overlap = 5 ≥ 0` are
parameters the claim admits, yet on the text `"abcd. xyzzz"` the
`chunk_text` loop never terminates (no amount of fuel completes it). -/
theorem chunk_text_can_loop_forever :
    5 < 6 ∧ ¬ ChunkTerminates "abcd. xyzzz" 6 5 := by
  refine ⟨by decide, ?_⟩
  rintro ⟨fuel, h⟩
  unfold chunkTextFuel at h
  rw [chunkLoop_cex_loops] at h
  simp at h

/-- Claim C7, amended: for every **nonempty** text with
`len(text) ≤ chunk_size`, `chunk_text` returns exactly one chunk (the empty
text yields zero chunks, see the counterexample). -/
theorem chunk_text_single (text : String) (cs ov : Nat)
    (h1 : text ≠ "") (h2 : text.length ≤ cs) :
    (chunkText text cs ov).length = 1 := by
  have hne : text.data ≠ [] := by
    intro hd
    apply h1
    cases text with
    | mk d =>
      cases hd
      rfl
  have hlen : 0 < text.data.length := List.length_pos.mpr hne
  have hcs : text.data.length ≤ cs := h2
  have hstart : (0 : Int) < (text.data.length : Int) := by exact_mod_cast hlen
  have hnoshrink : chunkShrink text.data cs 0 = false := by
    have hno : ¬ ((0 : Int) + (cs : Int) < (text.data.length : Int)) := by omega
    unfold chunkShrink
    rw [decide_eq_false hno, Bool.false_and]
  have hend : chunkEndAfter text.data cs 0 = (cs : Int) := by
    simp [chunkEndAfter, hnoshrink]
  have hstep : chunkStep text.data cs ov 0 = (text.data.length : Int) := by
    unfold chunkStep
    rw [hend]
    rw [if_neg (by omega)]
  obtain ⟨m, hm⟩ : ∃ m, text.data.length = m + 1 := ⟨text.data.length - 1, by omega⟩
  unfold chunkText chunkTextFuel
  rw [hm]
  rw [show chunkLoop text.data cs ov (m + 1 + 1) 0 [] =
      chunkLoop text.data cs ov (m + 1) (chunkStep text.data cs ov 0)
        ([] ++ [chunkEmit text.data cs 0]) from by
    simp only [chunkLoop]
    rw [if_pos hstart]]
  rw [hstep]
  rw [show chunkLoop text.data cs ov (m + 1) (text.data.length : Int)
        ([] ++ [chunkEmit text.data cs 0]) =
      some ([] ++ [chunkEmit text.data cs 0]) from by
    simp only [chunkLoop]
    rw [if_neg (lt_irrefl _)]]
  simp

/-- Witness for `chunk_text_single` on the nonempty two-character text
`"hi"` with the default parameters. -/
theorem chunk_text_single_witness : (chunkText "hi" 1000 200).length = 1 :=
  chunk_text_single "hi" 1000 200 (by decide) (by decide)

/-- Claim C7, counterexample: the empty text has length `0 ≤ chunk_size` but
`chunk_text` returns zero chunks, not one (the `while` loop body never
runs). -/
theorem chunk_text_empty_gives_no_chunk :
    chunkText "" 1000 200 = [] ∧ ("" : String).length ≤ 1000 := by
  exact ⟨rfl, by decide⟩

end Backend
